import Mathlib

/-!
Verification development for the GrahaTia message intake, abuse-control and
dispatch pipeline (`src/bot.py`, `src/utilities/prefix.py`).

The stateful Python code is embedded as pure Lean functions over an explicit
`BotState`.  Machine times are modelled as natural-number time units.  Parts of
the repository that the pipeline calls but whose code is not in `src/`
(the `Config` JSON key-value store of `utilities/async_config.py`, and the
third-party cooldown / prefix / command-resolution machinery) are modelled
from the spec; each such definition carries a doc comment saying so.
-/

/-- Modelled from the spec: the persistence collaborator (spec section 6), a
key-value store with `get`, `put`, `remove` — `utilities/async_config.py` is
not in `src/`.  Keys are the numeric ids (the store stringifies them, which is
injective, so we keep them as naturals).  An association list with replace-on-put. -/
def cfgFind (d : List (Nat × α)) (k : Nat) : Option (Nat × α) :=
  d.find? (fun e => e.1 == k)

/-- Key membership in the store (`key in config`). -/
def cfgHas (d : List (Nat × α)) (k : Nat) : Bool :=
  (cfgFind d k).isSome

/-- `config.get(key)` returning `none` when absent. -/
def cfgGet (d : List (Nat × α)) (k : Nat) : Option α :=
  (cfgFind d k).map (fun e => e.2)

/-- Modelled from the spec: `config.put(key, value)` — replace the entry if the
key is present, else append it. -/
def cfgPut (d : List (Nat × α)) (k : Nat) (v : α) : List (Nat × α) :=
  match d with
  | [] => [(k, v)]
  | e :: tl => if e.1 = k then (k, v) :: tl else e :: cfgPut tl k v

/-- Modelled from the spec: `config.remove(key)`, which raises `KeyError` when
the key is absent (the caller in `src/bot.py` catches that error). -/
def cfgRemove (d : List (Nat × α)) (k : Nat) : Except Unit (List (Nat × α)) :=
  if cfgHas d k then .ok (d.filter (fun e => e.1 != k)) else .error ()

/-- `collections.Counter` read: missing keys count as 0. -/
def cntGet (d : List (Nat × Nat)) (k : Nat) : Nat :=
  ((cfgFind d k).map (fun e => e.2)).getD 0

/-- Deleting a counter entry (`del c[k]` / `c.pop(k, None)`). -/
def cntDel (d : List (Nat × Nat)) (k : Nat) : List (Nat × Nat) :=
  d.filter (fun e => e.1 != k)

/-- Modelled from the spec: a per-caller rate-limit bucket (spec section 4.2
`RateLimiter` / section 3 `CooldownBucket`); the cooldown implementation the
source uses (`commands.CooldownMapping`) is third-party and not in `src/`. -/
structure Cooldown where
  rate : Nat
  per : Nat
  window : Nat
  count : Nat
deriving DecidableEq, Repr

/-- Modelled from the spec (section 4.2): fixed-window check.  If the event
time falls outside the current window, reset the count and restart the window
at the event time; then count the event, and report `some retry_after` when
the capacity is exceeded, `none` when the event is allowed. -/
def Cooldown.update_rate_limit (b : Cooldown) (t : Nat) : Cooldown × Option Nat :=
  let b1 := if b.window + b.per ≤ t then { b with window := t, count := 0 } else b
  let b2 := { b1 with window := b1.window, count := b1.count + 1 }
  if b2.rate < b2.count then (b2, some (b2.window + b2.per - t)) else (b2, none)

/-- Modelled from the spec: bucket lookup in a cooldown mapping, with lazy
creation on a caller's first event (spec section 3: buckets are created lazily;
the new bucket's window starts at the event time with a count of zero). -/
def get_bucket (bs : List (Nat × Cooldown)) (rate per k t : Nat) : Cooldown :=
  (cfgGet bs k).getD { rate := rate, per := per, window := t, count := 0 }

/-- An inbound message-like event (spec section 6). -/
structure Message where
  authorId : Nat
  authorDisplayName : String
  authorIsBot : Bool
  guildId : Option Nat
  content : String
  createdAt : Nat
  embeds : List String
deriving DecidableEq, Repr

/-- The mutable state of the `Graha` bot that the intake pipeline touches. -/
structure BotState where
  userId : Nat
  ownerId : Nat
  blacklist : List (Nat × Bool)
  prefixData : List (Nat × List String)
  spam_buckets : List (Nat × Cooldown)
  spammer_count : List (Nat × Nat)
  error_buckets : List (Nat × Cooldown)
  commandTable : List String
deriving DecidableEq, Repr

/-- The author-derived prefix from `src/utilities/prefix.py`: first character
of the author's display name, case-folded (modelled by `Char.toLower`; display
names are nonempty, the Python indexes `display_name[0]`), plus a space. -/
def username_prefix (m : Message) : String :=
  String.mk [Char.toLower (m.authorDisplayName.toList.headD ' '), ' ']

/-- Modelled from the spec: the two mention forms of the bot
(spec section 4.1 `mention_form`; `commands.when_mentioned` is third-party). -/
def mention_forms (uid : Nat) : List String :=
  ["<@" ++ toString uid ++ "> ", "<@!" ++ toString uid ++ "> "]

/-- Modelled from the spec: `commands.when_mentioned_or(*prefixes)` — the
mention forms followed by the given prefixes. -/
def when_mentioned_or (s : BotState) (ps : List String) : List String :=
  mention_forms s.userId ++ ps

/-- `callable_prefix` from `src/utilities/prefix.py`: for a private message the
default prefix and the author-derived prefix; for a guild message the guild's
stored prefixes with `["gt "]` substituted when the stored list is absent or
empty; the mention forms always come first, the author-derived prefix last. -/
def callable_prefix (s : BotState) (m : Message) : List String :=
  match m.guildId with
  | none => when_mentioned_or s ["gt ", username_prefix m]
  | some gid =>
      let gp0 := (cfgGet s.prefixData gid).getD []
      let gp := if gp0.isEmpty then ["gt "] else gp0
      when_mentioned_or s (gp ++ [ username_prefix m])

/-- The first whitespace-delimited token of a string. -/
def first_token (s : String) : String :=
  String.mk (s.data.takeWhile (fun c => c ≠ ' '))

/-- Modelled from the spec: the `CommandResolver` / `PREFIX_MATCH` stage
(spec section 4.5) — `get_context` is third-party, but the candidate prefixes
come from the source function `callable_prefix`.  Strips the longest matching
prefix and looks the leading token up in the command table; `none` is
`ctx.command is None`. -/
def get_command (s : BotState) (m : Message) : Option String :=
  let ms := ( callable_prefix s m).filter (fun p => p.data.isPrefixOf m.content.data)
  match ms with
  | [] => none
  | _ =>
      let best := ms.foldl (fun a p => if a.length < p.length then p else a) ""
      let tok := first_token (String.mk (m.content.data.drop best.data.length))
      if s.commandTable.contains tok then some tok else none

/-- The terminal states of one inbound event (spec section 4.5). -/
inductive Outcome where
  | noCommand
  | dropped
  | throttled (retry : Nat)
  | autoBlocked (retry : Nat)
  | invoked
deriving DecidableEq, Repr

/-- Whether the message's guild is blocklisted (`ctx.guild is not None and
ctx.guild.id in self._blacklist_data`, `src/bot.py` line 338). -/
def guild_blocked (s : BotState) (m : Message) : Bool :=
  match m.guildId with
  | some g => cfgHas s.blacklist g
  | none => false

/-- `Graha.process_commands` (`src/bot.py` lines 329-358): resolve the command,
drop blocklisted callers, update the spam cooldown bucket, escalate repeat
violators into the blocklist at 5 consecutive throttles (owner exempt), and
otherwise clear the violation counter and invoke the command. -/
def process_commands (s : BotState) (m : Message) : BotState × Outcome :=
  if (get_command s m).isNone then (s, .noCommand)
  else if cfgHas s.blacklist m.authorId then (s, .dropped)
  else if guild_blocked s m then (s, .dropped)
  else
    let t := m.createdAt
    let p := (get_bucket s.spam_buckets 10 12 m.authorId t).update_rate_limit t
    let s1 : BotState := { s with spam_buckets := cfgPut s.spam_buckets m.authorId p.1 }
    let r := p.2.getD 0
    if r ≠ 0 ∧ m.authorId ≠ s.ownerId then
      let c := cntGet s1.spammer_count m.authorId + 1
      if 5 ≤ c then
        ({ s1 with blacklist := cfgPut s1.blacklist m.authorId true,
                   spammer_count := cntDel s1.spammer_count m.authorId }, .autoBlocked r)
      else
        ({ s1 with spammer_count := cfgPut s1.spammer_count m.authorId c }, .throttled r)
    else
      ({ s1 with spammer_count := cntDel s1.spammer_count m.authorId }, .invoked)

/-- `Graha.on_message` (`src/bot.py` lines 360-364): messages from bot
accounts are ignored entirely; `none` means `process_commands` never ran. -/
def on_message (s : BotState) (m : Message) : BotState × Option Outcome :=
  if m.authorIsBot then (s, none)
  else
    let r := process_commands s m
    (r.1, some r.2)

/-- `Graha.on_message_edit` (`src/bot.py` lines 366-371): only owner edits are
reprocessed, and they are skipped exactly when the pre-edit message had no
embeds and the post-edit message has some. -/
def on_message_edit (s : BotState) (before after : Message) : BotState × Option Outcome :=
  if after.authorId = s.ownerId then
    if before.embeds = [] ∧ after.embeds ≠ [] then (s, none)
    else
      let r := process_commands s after
      (r.1, some r.2)
  else (s, none)

/-- `Graha._set_guild_prefixes` (`src/bot.py` lines 279-285): an empty or
absent list stores `[]`, more than 10 prefixes raises `TooManyArguments`,
otherwise the list is stored. -/
def set_guild_prefixes (d : List (Nat × List String)) (gid : Nat)
    (ps : Option (List String)) : Except String (List (Nat × List String)) :=
  if (ps.getD []).isEmpty then .ok (cfgPut d gid [])
  else if 10 < (ps.getD []).length then .error "Cannot have more than 10 custom prefixes."
  else .ok (cfgPut d gid (ps.getD []))

/-- `Graha._blacklist_add` (`src/bot.py` lines 287-288): `put(object_id, True)`. -/
def blacklist_add (d : List (Nat × Bool)) (k : Nat) : List (Nat × Bool) :=
  cfgPut d k true

/-- `Graha._blacklist_remove` (`src/bot.py` lines 290-294): `remove` with the
`KeyError` for an absent key swallowed, so it is total. -/
def blacklist_remove (d : List (Nat × Bool)) (k : Nat) : List (Nat × Bool) :=
  match cfgRemove d k with
  | .ok d2 => d2
  | .error _ => d

/-- The shapes of `commands.CommandError` that `on_command_error`
distinguishes; `commandInvoke` is an error raised inside a command body,
with the flag telling whether the original error was an HTTP error. -/
inductive CommandError where
  | noPrivateMessage
  | disabledCommand
  | commandInvoke (isHTTP : Bool)
  | other
deriving DecidableEq, Repr

/-- The observable effects of one run of the error handler: the reaction added
to the message, local log lines, payloads delivered to the operator webhook
channel, and replies sent to the caller. -/
structure ErrorReport where
  reactions : Nat
  log_lines : List String
  webhook_sends : List String
  replies : List String
deriving DecidableEq, Repr

/-- `Graha.on_command_error` (`src/bot.py` lines 213-263).  A reaction is
always added; already-handled errors stop there.  `NoPrivateMessage` and
`DisabledCommand` update the error cooldown and return — the explanatory text
is built into `ret` but the function returns before any send.  For
`CommandInvokeError` a local log line carrying the ray id is written (unless
the original error is an HTTP error) and the function returns — again without
sending `ret`.  Every other error reaches the tail: one webhook embed whose
footer carries the ray id and one caller reply quoting the ray id. -/
def on_command_error (s : BotState) (m : Message) (exc_handled : Bool)
    (ray_id : String) (err : CommandError) (now : Nat) : BotState × ErrorReport :=
  let base : ErrorReport := { reactions := 1, log_lines := [], webhook_sends := [], replies := [] }
  if exc_handled then (s, base)
  else
    match err with
    | .noPrivateMessage =>
        let p := (get_bucket s.error_buckets 1 5 m.authorId now).update_rate_limit now
        ({ s with error_buckets := cfgPut s.error_buckets m.authorId p.1 }, base)
    | .disabledCommand =>
        let p := (get_bucket s.error_buckets 1 5 m.authorId now).update_rate_limit now
        ({ s with error_buckets := cfgPut s.error_buckets m.authorId p.1 }, base)
    | .commandInvoke isHTTP =>
        if isHTTP then (s, base)
        else (s, { base with log_lines := ["in command with ray id: " ++ ray_id] })
    | .other =>
        (s, { base with
                webhook_sends := ["Ray ID: " ++ ray_id],
                replies := ["Quote Ray ID: " ++ ray_id ++ " if contacting the developer."] })

/-- One caller's event times fed through a single cooldown bucket, collecting
each event's rate-limit answer (`none` = allowed). -/
def runCooldown (b : Cooldown) : List Nat → Cooldown × List (Option Nat)
  | [] => (b, [])
  | t :: ts =>
      let p := b.update_rate_limit t
      let r := runCooldown p.1 ts
      (r.1, p.2 :: r.2)

/-- The number of event times falling in the half-open window `[t, t+12)`. -/
def windowCount (ts : List Nat) (t : Nat) : Nat :=
  ts.countP (fun x => decide (t ≤ x ∧ x < t + 12))

/-- The spam bucket state after checking message `m`: the first component of
`bucket.update_rate_limit(current)` inside `process_commands`. -/
def spamBucketAfter (s : BotState) (m : Message) : Cooldown :=
  ((get_bucket s.spam_buckets 10 12 m.authorId m.createdAt).update_rate_limit m.createdAt).1

/-- The `retry_after` the spam cooldown reports for message `m`, with `0` for
`None` (mirroring the Python truthiness test `if retry_after and ...`). -/
def spamRetry (s : BotState) (m : Message) : Nat :=
  ((get_bucket s.spam_buckets 10 12 m.authorId m.createdAt).update_rate_limit
    m.createdAt).2.getD 0

/-! ## Concrete fixtures used by witnesses and counterexamples -/

/-- A small bot state: owner id 1, one registered command `ping`, empty stores. -/
def S0 : BotState :=
  { userId := 99, ownerId := 1, blacklist := [], prefixData := [],
    spam_buckets := [], spammer_count := [], error_buckets := [], commandTable := ["ping"] }

/-- A plain direct-message command invocation from user 2. -/
def M0 : Message :=
  { authorId := 2, authorDisplayName := "Alice", authorIsBot := false,
    guildId := none, content := "gt ping", createdAt := 0, embeds := [] }

/-- An owner-authored command message that already carries an embed. -/
def MownEmb : Message :=
  { authorId := 1, authorDisplayName := "Owner", authorIsBot := false,
    guildId := none, content := "gt ping", createdAt := 0, embeds := ["embed"] }

/-- An 11-entry custom prefix list. -/
def P11 : List String :=
  ["a ", "b ", "c ", "d ", "e ", "f ", "g ", "h ", "i ", "j ", "k "]

/-- A guild message from user 2 in guild 7. -/
def MG7 : Message :=
  { authorId := 2, authorDisplayName := "Alice", authorIsBot := false,
    guildId := some 7, content := "gt ping", createdAt := 0, embeds := [] }

/-- The bot state after clearing guild 7's prefixes on an empty store. -/
def SG7 : BotState :=
  { S0 with prefixData := cfgPut [] 7 [] }

/-- A state where user 2's spam bucket is already at capacity for the window
starting at time 0. -/
def Sthrottle : BotState :=
  { S0 with spam_buckets := [(2, { rate := 10, per := 12, window := 0, count := 10 })] }

/-- `M0` sent at time 5 (inside the saturated window of `Sthrottle`). -/
def Mt5 : Message :=
  { M0 with createdAt := 5 }

/-- `Sthrottle` with user 2 already at 4 consecutive violations. -/
def Scount4 : BotState :=
  { Sthrottle with spammer_count := [(2, 4)] }

/-- A state where the owner's (id 1) spam bucket is already at capacity. -/
def SownFull : BotState :=
  { S0 with spam_buckets := [(1, { rate := 10, per := 12, window := 0, count := 10 })] }

/-- A command message from the owner at time 5. -/
def MownT5 : Message :=
  { M0 with authorId := 1, createdAt := 5 }

/-- A state with user 2 on the blocklist. -/
def Sblocked : BotState :=
  { S0 with blacklist := [(2, true)] }

/-- A state with user 2 at 4 violations but a fresh (empty) bucket map. -/
def Sc4fresh : BotState :=
  { S0 with spammer_count := [(2, 4)] }

/-! ## Helper lemmas about the key-value store and counters -/

theorem cfgFind_cfgPut (d : List (Nat × α)) (k j : Nat) (v : α) :
    cfgFind (cfgPut d k v) j = if j = k then some (k, v) else cfgFind d j := by
  induction d with
  | nil =>
      by_cases h : j = k
      · simp [cfgPut, cfgFind, List.find?, h]
      · have hkj : (k == j) = false := by
          simp only [beq_eq_false_iff_ne, ne_eq]
          exact fun hj => h hj.symm
        simp [cfgPut, cfgFind, List.find?, h, hkj]
  | cons e tl ih =>
      by_cases hek : e.1 = k
      · by_cases hjk : j = k
        · simp [cfgPut, cfgFind, List.find?, hek, hjk]
        · have hej : (e.1 == j) = false := by
            simp only [beq_eq_false_iff_ne, ne_eq]
            exact fun hj => hjk ((hj.symm.trans hek).symm ▸ rfl)
          have hkj : (k == j) = false := by
            simp only [beq_eq_false_iff_ne, ne_eq]
            exact fun hj => hjk hj.symm
          simp [cfgPut, cfgFind, List.find?, hek, hjk, hej, hkj]
      · by_cases hej : e.1 = j
        · have hjk : ¬ j = k := fun hj => hek (hej.trans hj)
          simp [cfgPut, cfgFind, List.find?, hek, hej, hjk]
        · have hejb : (e.1 == j) = false := by simp [hej]
          simp only [cfgPut, hek, if_false, cfgFind, List.find?, hejb]
          simpa [cfgFind] using ih

theorem cfgFind_cfgPut_self (d : List (Nat × α)) (k : Nat) (v : α) :
    cfgFind (cfgPut d k v) k = some (k, v) := by
  simp [cfgFind_cfgPut]

theorem cfgHas_cfgPut_self (d : List (Nat × α)) (k : Nat) (v : α) :
    cfgHas (cfgPut d k v) k = true := by
  simp [cfgHas, cfgFind_cfgPut_self]

theorem cfgGet_cfgPut_self (d : List (Nat × α)) (k : Nat) (v : α) :
    cfgGet (cfgPut d k v) k = some v := by
  simp [cfgGet, cfgFind_cfgPut_self]

theorem cfgHas_cfgPut_mono (d : List (Nat × α)) (k j : Nat) (v : α)
    (h : cfgHas d j = true) : cfgHas (cfgPut d k v) j = true := by
  by_cases hjk : j = k
  · simp [cfgHas, cfgFind_cfgPut, hjk]
  · simpa [cfgHas, cfgFind_cfgPut, hjk] using h

theorem cfgFind_erase_self (d : List (Nat × α)) (k : Nat) :
    cfgFind (d.filter (fun e => e.1 != k)) k = none := by
  induction d with
  | nil => simp [cfgFind, List.find?]
  | cons e tl ih =>
      by_cases h : e.1 = k
      · have hb : (e.1 != k) = false := by simp [h]
        simp only [List.filter_cons, hb, if_false]
        exact ih
      · have hb : (e.1 != k) = true := by simp [h]
        have hej : (e.1 == k) = false := by simp [h]
        simp only [List.filter_cons, hb, if_true]
        simp only [cfgFind, List.find?, hej] at ih ⊢
        exact ih

theorem cfgFind_cntDel_self (d : List (Nat × Nat)) (k : Nat) :
    cfgFind (cntDel d k) k = none :=
  cfgFind_erase_self d k

theorem cntGet_cfgPut_self (d : List (Nat × Nat)) (k c : Nat) :
    cntGet (cfgPut d k c) k = c := by
  simp [cntGet, cfgFind_cfgPut_self]

/-! ## Claim theorems -/

/-- C9: on the blocklist store, `add(id)` then `is_blocked(id)` is true,
`remove(id)` then `is_blocked(id)` is false, and `remove` on an absent id
does not raise (the wrapper is total and returns the store unchanged). -/
theorem graha_C9 (d : List (Nat × Bool)) (k : Nat) :
    cfgHas (blacklist_add d k) k = true ∧
    cfgHas (blacklist_remove d k) k = false ∧
    (cfgHas d k = false → blacklist_remove d k = d) := by
  refine ⟨cfgHas_cfgPut_self d k true, ?_, ?_⟩
  · by_cases h : cfgHas d k
    · have hrem : cfgRemove d k = .ok (d.filter (fun e => e.1 != k)) := by
        simp [cfgRemove, h]
      simp [blacklist_remove, hrem, cfgHas, cfgFind_erase_self]
    · simp only [Bool.not_eq_true] at h
      have hrem : cfgRemove d k = (.error () : Except Unit (List (Nat × Bool))) := by
        simp [cfgRemove, h]
      simp [blacklist_remove, hrem, h]
  · intro h
    have hrem : cfgRemove d k = (.error () : Except Unit (List (Nat × Bool))) := by
      simp [cfgRemove, h]
    simp [blacklist_remove, hrem]

/-- Witness for C9 at the concrete id 5 over concrete stores. -/
theorem graha_C9_witness :
    cfgHas (blacklist_add [(3, true)] 5) 5 = true ∧
    cfgHas (blacklist_remove [(3, true), (5, true)] 5) 5 = false ∧
    blacklist_remove [(3, true)] 5 = [(3, true)] :=
  ⟨(graha_C9 [(3, true)] 5).1, (graha_C9 [(3, true), (5, true)] 5).2.1,
   (graha_C9 [(3, true)] 5).2.2 (by decide)⟩

/-- C10: a message authored by a bot account is ignored outright —
`process_commands` never runs, so no blocklist check, no rate-limit update,
no violation-counter change and no invocation; the state is unchanged. -/
theorem graha_C10 (s : BotState) (m : Message) (h : m.authorIsBot = true) :
    on_message s m = (s, none) := by
  simp [on_message, h]

/-- Witness for C10: a concrete bot-authored message. -/
theorem graha_C10_witness :
    on_message S0 { M0 with authorIsBot := true } = (S0, none) :=
  graha_C10 S0 { M0 with authorIsBot := true } (by decide)

/-- C8 counterexample: the claim says an edit is accepted as a new invocation
only if the author is the operator AND the message did not already carry
rendered content.  Here the operator edits a message that already carried an
embed before the edit, and the code nevertheless reprocesses and invokes it. -/
theorem graha_C8_cex :
    (on_message_edit S0 MownEmb MownEmb).2 = some .invoked ∧ MownEmb.embeds ≠ [] := by
  constructor
  · rfl
  · decide

/-- C8 (amended): an edit is reprocessed as a command if and only if its
author is the operator and the edit did not newly add rendered content, i.e.
it is skipped exactly when the pre-edit message had no embeds and the
post-edit message has some. -/
theorem graha_C8_amended (s : BotState) (b a : Message) :
    (on_message_edit s b a).2 ≠ none ↔
      (a.authorId = s.ownerId ∧ ¬(b.embeds = [] ∧ a.embeds ≠ [])) := by
  unfold on_message_edit
  by_cases h1 : a.authorId = s.ownerId
  · by_cases h2 : b.embeds = [] ∧ a.embeds ≠ []
    · simp [h1, h2]
    · simp [h1, h2]
  · simp [h1]

/-- C5: setting more than 10 custom prefixes for a group fails with the
`TooManyArguments` configuration error and produces no new store (the prior
configuration is untouched); an empty (or absent) list succeeds, stores `[]`,
and prefix resolution for that group then falls back to the default prefix. -/
theorem graha_C5 (d : List (Nat × List String)) (gid : Nat) (ps : List String)
    (h : 10 < ps.length) :
    set_guild_prefixes d gid (some ps) = .error "Cannot have more than 10 custom prefixes." ∧
    (set_guild_prefixes d gid (some []) = .ok (cfgPut d gid []) ∧
     set_guild_prefixes d gid none = .ok (cfgPut d gid [])) ∧
    (∀ (s : BotState) (m : Message), m.guildId = some gid →
       s.prefixData = cfgPut d gid [] →
       "gt " ∈ callable_prefix s m ∧
       ∀ f ∈ mention_forms s.userId, f ∈ callable_prefix s m) := by
  refine ⟨?_, ⟨?_, ?_⟩, ?_⟩
  · have hne : ps.isEmpty = false := by
      cases ps with
      | nil => simp at h
      | cons a tl => simp
    simp only [set_guild_prefixes, Option.getD_some, hne, Bool.false_eq_true, if_false, h,
      if_true]
  · simp [set_guild_prefixes]
  · simp [set_guild_prefixes]
  · intro s m hm hp
    have hget : cfgGet s.prefixData gid = some [] := by
      rw [hp]; exact cfgGet_cfgPut_self d gid []
    constructor
    · simp [ callable_prefix, hm, hget, when_mentioned_or]
    · intro f hf
      simp [ callable_prefix, hm, hget, when_mentioned_or, List.mem_append]
      tauto

/-- Witness for C5: an 11-entry list is rejected on guild 7, the empty list is
stored, and resolution in guild 7 afterwards contains the default prefix. -/
theorem graha_C5_witness :
    set_guild_prefixes [] 7 (some P11) = .error "Cannot have more than 10 custom prefixes." ∧
    set_guild_prefixes [] 7 (some []) = .ok (cfgPut [] 7 []) ∧
    "gt " ∈ callable_prefix SG7 MG7 :=
  ⟨(graha_C5 [] 7 P11 (by decide)).1,
   ((graha_C5 [] 7 P11 (by decide)).2.1).1,
   ((graha_C5 [] 7 P11 (by decide)).2.2 SG7 MG7 (by decide) rfl).1⟩

/-- C6: for a guild message, prefix resolution looks up the guild's stored
prefix list, substitutes the default `"gt "` when the stored list is empty or
absent, and always includes the mention forms (in front) and the
author-derived prefix (appended last) regardless of custom configuration; in
particular with no custom prefixes the result contains the default prefix and
the mention forms. -/
theorem graha_C6 (s : BotState) (m : Message) (gid : Nat) (h : m.guildId = some gid) :
    ( callable_prefix s m =
        mention_forms s.userId ++
          (if ((cfgGet s.prefixData gid).getD []).isEmpty then ["gt "]
           else (cfgGet s.prefixData gid).getD []) ++ [ username_prefix m]) ∧
    ( username_prefix m ∈ callable_prefix s m) ∧
    (∀ f ∈ mention_forms s.userId, f ∈ callable_prefix s m) ∧
    (((cfgGet s.prefixData gid).getD []).isEmpty = true →
       "gt " ∈ callable_prefix s m) := by
  have hmain : callable_prefix s m =
      mention_forms s.userId ++
        (if ((cfgGet s.prefixData gid).getD []).isEmpty then ["gt "]
         else (cfgGet s.prefixData gid).getD []) ++ [ username_prefix m] := by
    simp [ callable_prefix, h, when_mentioned_or, List.append_assoc]
  refine ⟨hmain, ?_, ?_, ?_⟩
  · rw [hmain]; simp
  · intro f hf
    rw [hmain]; simp [List.mem_append]; tauto
  · intro he
    rw [hmain]; simp [he]

/-- Witness for C6: in guild 7 with no stored prefixes, resolution yields the
mention forms, the default prefix, and the author-derived prefix. -/
theorem graha_C6_witness :
    ( callable_prefix S0 MG7 =
        mention_forms S0.userId ++
          (if ((cfgGet S0.prefixData 7).getD []).isEmpty then ["gt "]
           else (cfgGet S0.prefixData 7).getD []) ++ [ username_prefix MG7]) ∧
    "<@99> " ∈ callable_prefix S0 MG7 ∧
    "gt " ∈ callable_prefix S0 MG7 :=
  ⟨(graha_C6 S0 MG7 7 (by decide)).1,
   (graha_C6 S0 MG7 7 (by decide)).2.2.1 "<@99> " (by decide),
   (graha_C6 S0 MG7 7 (by decide)).2.2.2 (by decide)⟩

/-! ## Step lemmas for `process_commands` -/

/-- A clean (non-throttled, or owner-exempt) eligible event: the bucket is
updated, the violation counter entry is removed, and the command is invoked. -/
theorem process_commands_clean (s : BotState) (m : Message)
    (hc : (get_command s m).isNone = false)
    (ha : cfgHas s.blacklist m.authorId = false)
    (hg : guild_blocked s m = false)
    (hr : spamRetry s m = 0 ∨ m.authorId = s.ownerId) :
    process_commands s m =
      ({ s with spam_buckets := cfgPut s.spam_buckets m.authorId (spamBucketAfter s m),
                spammer_count := cntDel s.spammer_count m.authorId }, .invoked) := by
  have hguard : ¬(spamRetry s m ≠ 0 ∧ m.authorId ≠ s.ownerId) := by
    rcases hr with hr | hr
    · exact fun h2 => h2.1 hr
    · exact fun h2 => h2.2 hr
  simp only [spamRetry] at hguard
  simp [process_commands, hc, ha, hg, hguard, spamBucketAfter]

/-- A throttled eligible event from a non-owner below the escalation
threshold: the violation counter is incremented and the event is throttled. -/
theorem process_commands_throttle (s : BotState) (m : Message)
    (hc : (get_command s m).isNone = false)
    (ha : cfgHas s.blacklist m.authorId = false)
    (hg : guild_blocked s m = false)
    (hr : spamRetry s m ≠ 0)
    (ho : m.authorId ≠ s.ownerId)
    (hcnt : cntGet s.spammer_count m.authorId + 1 < 5) :
    process_commands s m =
      ({ s with spam_buckets := cfgPut s.spam_buckets m.authorId (spamBucketAfter s m),
                spammer_count := cfgPut s.spammer_count m.authorId
                  (cntGet s.spammer_count m.authorId + 1) }, .throttled (spamRetry s m)) := by
  simp only [spamRetry] at hr
  have hlt : ¬ 5 ≤ cntGet s.spammer_count m.authorId + 1 := by omega
  simp [process_commands, hc, ha, hg, hr, ho, hlt, spamBucketAfter, spamRetry]

/-- A throttled eligible event from a non-owner that reaches the escalation
threshold: the caller is blocklisted and the counter entry is deleted. -/
theorem process_commands_block (s : BotState) (m : Message)
    (hc : (get_command s m).isNone = false)
    (ha : cfgHas s.blacklist m.authorId = false)
    (hg : guild_blocked s m = false)
    (hr : spamRetry s m ≠ 0)
    (ho : m.authorId ≠ s.ownerId)
    (hcnt : 5 ≤ cntGet s.spammer_count m.authorId + 1) :
    process_commands s m =
      ({ s with spam_buckets := cfgPut s.spam_buckets m.authorId (spamBucketAfter s m),
                blacklist := cfgPut s.blacklist m.authorId true,
                spammer_count := cntDel s.spammer_count m.authorId }, .autoBlocked (spamRetry s m)) := by
  simp only [spamRetry] at hr
  simp [process_commands, hc, ha, hg, hr, ho, hcnt, spamBucketAfter, spamRetry]

/-- C1: an event whose author (or, for a guild message, whose guild) is on the
blocklist is dropped silently before any other processing: the state — rate
limit buckets, violation counters, blocklist — is unchanged and the outcome is
never an invocation, reaction, reply or diagnostic (it is `noCommand` when no
command parses, `dropped` otherwise).  Moreover no event ever removes a
blocklist entry, so this persists until an explicit remove call. -/
theorem graha_C1 (s : BotState) (m : Message) :
    ((cfgHas s.blacklist m.authorId = true ∨ guild_blocked s m = true) →
       (process_commands s m).1 = s ∧
       ((process_commands s m).2 = .noCommand ∨ (process_commands s m).2 = .dropped)) ∧
    (∀ k, cfgHas s.blacklist k = true →
       cfgHas (process_commands s m).1.blacklist k = true) := by
  constructor
  · intro hb
    by_cases hc : (get_command s m).isNone
    · simp [process_commands, hc]
    · simp only [Bool.not_eq_true] at hc
      rcases hb with hb | hb
      · simp [process_commands, hc, hb]
      · by_cases ha : cfgHas s.blacklist m.authorId
        · simp [process_commands, hc, ha]
        · simp only [Bool.not_eq_true] at ha
          simp [process_commands, hc, ha, hb]
  · intro k hk
    by_cases hc : (get_command s m).isNone
    · simpa [process_commands, hc] using hk
    · simp only [Bool.not_eq_true] at hc
      by_cases ha : cfgHas s.blacklist m.authorId
      · simpa [process_commands, hc, ha] using hk
      · simp only [Bool.not_eq_true] at ha
        by_cases hg : guild_blocked s m
        · simpa [process_commands, hc, ha, hg] using hk
        · simp only [Bool.not_eq_true] at hg
          by_cases hro : spamRetry s m ≠ 0 ∧ m.authorId ≠ s.ownerId
          · by_cases hcnt : 5 ≤ cntGet s.spammer_count m.authorId + 1
            · rw [process_commands_block s m hc ha hg hro.1 hro.2 hcnt]
              exact cfgHas_cfgPut_mono _ _ _ _ hk
            · rw [process_commands_throttle s m hc ha hg hro.1 hro.2 (by omega)]
              exact hk
          · have hr : spamRetry s m = 0 ∨ m.authorId = s.ownerId := by
              by_cases h0 : spamRetry s m = 0
              · exact .inl h0
              · right; by_contra hno; exact hro ⟨h0, hno⟩
            rw [process_commands_clean s m hc ha hg hr]
            exact hk

/-- Witness for C1: user 2 is blocklisted; their command message is dropped
with the state untouched, and the entry is still present afterwards. -/
theorem graha_C1_witness :
    ((process_commands Sblocked M0).1 = Sblocked ∧
     ((process_commands Sblocked M0).2 = .noCommand ∨
      (process_commands Sblocked M0).2 = .dropped)) ∧
    cfgHas (process_commands Sblocked M0).1.blacklist 2 = true :=
  ⟨(graha_C1 Sblocked M0).1 (.inl (by decide)),
   (graha_C1 Sblocked M0).2 2 (by decide)⟩

/-- C7: for an eligible event authored by the bot owner the rate-limit check
is still performed (the bucket is updated), but the owner is always invoked,
never accrues violations (their counter entry is removed) and is never
blocklisted, even if the bucket reports a retry. -/
theorem graha_C7 (s : BotState) (m : Message)
    (hc : (get_command s m).isNone = false)
    (ha : cfgHas s.blacklist m.authorId = false)
    (hg : guild_blocked s m = false)
    (ho : m.authorId = s.ownerId) :
    (process_commands s m).2 = .invoked ∧
    (process_commands s m).1.blacklist = s.blacklist ∧
    cfgFind (process_commands s m).1.spammer_count m.authorId = none ∧
    (process_commands s m).1.spam_buckets =
      cfgPut s.spam_buckets m.authorId (spamBucketAfter s m) := by
  rw [process_commands_clean s m hc ha hg (.inr ho)]
  exact ⟨rfl, rfl, cfgFind_cntDel_self _ _, rfl⟩

/-- Witness for C7: the owner's bucket is saturated (`spamRetry = 7 ≠ 0`), yet
the owner's command is invoked, no violation is recorded, no blocklisting. -/
theorem graha_C7_witness :
    spamRetry SownFull MownT5 = 7 ∧
    (process_commands SownFull MownT5).2 = .invoked ∧
    (process_commands SownFull MownT5).1.blacklist = SownFull.blacklist ∧
    cfgFind (process_commands SownFull MownT5).1.spammer_count 1 = none ∧
    (process_commands SownFull MownT5).1.spam_buckets =
      cfgPut SownFull.spam_buckets 1 (spamBucketAfter SownFull MownT5) :=
  ⟨by decide,
   (graha_C7 SownFull MownT5 (by decide) (by decide) (by decide) (by decide)).1,
   (graha_C7 SownFull MownT5 (by decide) (by decide) (by decide) (by decide)).2.1,
   (graha_C7 SownFull MownT5 (by decide) (by decide) (by decide) (by decide)).2.2.1,
   (graha_C7 SownFull MownT5 (by decide) (by decide) (by decide) (by decide)).2.2.2⟩

/-- C3: for an eligible event from a non-owner caller, a throttled event
(`spamRetry ≠ 0`) increments the caller's violation counter; when that makes 5
consecutive violations (counter already at 4) the caller is added to the
blocklist and the counter entry is deleted; a clean event (`spamRetry = 0`)
removes the counter entry, i.e. resets the violation count to 0.  Once
blocklisted, later events leave the state unchanged (so the add happens
exactly once). -/
theorem graha_C3 (s : BotState) (m : Message) :
    ((get_command s m).isNone = false →
     cfgHas s.blacklist m.authorId = false →
     guild_blocked s m = false →
     m.authorId ≠ s.ownerId →
     ((spamRetry s m ≠ 0 →
        (4 ≤ cntGet s.spammer_count m.authorId →
           cfgHas (process_commands s m).1.blacklist m.authorId = true ∧
           cfgFind (process_commands s m).1.spammer_count m.authorId = none ∧
           (process_commands s m).2 = .autoBlocked (spamRetry s m)) ∧
        (cntGet s.spammer_count m.authorId < 4 →
           cntGet (process_commands s m).1.spammer_count m.authorId =
             cntGet s.spammer_count m.authorId + 1 ∧
           (process_commands s m).1.blacklist = s.blacklist ∧
           (process_commands s m).2 = .throttled (spamRetry s m))) ∧
      (spamRetry s m = 0 →
        cfgFind (process_commands s m).1.spammer_count m.authorId = none ∧
        (process_commands s m).1.blacklist = s.blacklist ∧
        (process_commands s m).2 = .invoked))) ∧
    (cfgHas s.blacklist m.authorId = true → (process_commands s m).1 = s) := by
  constructor
  · intro hc ha hg ho
    constructor
    · intro hr
      constructor
      · intro h4
        rw [process_commands_block s m hc ha hg hr ho (by omega)]
        exact ⟨cfgHas_cfgPut_self _ _ _, cfgFind_cntDel_self _ _, rfl⟩
      · intro h4
        rw [process_commands_throttle s m hc ha hg hr ho (by omega)]
        exact ⟨cntGet_cfgPut_self _ _ _, rfl, rfl⟩
    · intro hr
      rw [process_commands_clean s m hc ha hg (.inl hr)]
      exact ⟨cfgFind_cntDel_self _ _, rfl, rfl⟩
  · intro hb
    by_cases hc : (get_command s m).isNone
    · simp [process_commands, hc]
    · simp only [Bool.not_eq_true] at hc
      simp [process_commands, hc, hb]

/-- Witness for C3: user 2 at 4 violations is throttled a 5th time and gets
blocklisted with the counter entry deleted; separately, a clean event from
user 2 resets (removes) the counter entry and invokes the command. -/
theorem graha_C3_witness :
    (cfgHas (process_commands Scount4 Mt5).1.blacklist 2 = true ∧
     cfgFind (process_commands Scount4 Mt5).1.spammer_count 2 = none ∧
     (process_commands Scount4 Mt5).2 = .autoBlocked (spamRetry Scount4 Mt5)) ∧
    (cfgFind (process_commands Sc4fresh M0).1.spammer_count 2 = none ∧
     (process_commands Sc4fresh M0).1.blacklist = Sc4fresh.blacklist ∧
     (process_commands Sc4fresh M0).2 = .invoked) :=
  ⟨(((graha_C3 Scount4 Mt5).1 (by decide) (by decide) (by decide) (by decide)).1
      (by decide)).1 (by decide),
   ((graha_C3 Sc4fresh M0).1 (by decide) (by decide) (by decide) (by decide)).2
      (by decide)⟩

/-- C4 (code behaviour at the failing input): for an internal error raised
inside a command body (`CommandInvokeError` around a non-HTTP error, not
previously handled), the handler adds the reaction and writes one local log
line with the ray id, but sends NO operator webhook diagnostic and NO caller
reply — the built reply text is discarded by an early `return`.  The final
conjuncts show the intended pattern does exist for the residual error branch,
which sends exactly one webhook diagnostic and one reply quoting the ray id. -/
theorem graha_C4_behavior :
    (on_command_error S0 M0 false "ray-123" (.commandInvoke false) 0).2.webhook_sends = [] ∧
    (on_command_error S0 M0 false "ray-123" (.commandInvoke false) 0).2.replies = [] ∧
    (on_command_error S0 M0 false "ray-123" (.commandInvoke false) 0).2.log_lines =
      ["in command with ray id: ray-123"] ∧
    (on_command_error S0 M0 false "ray-123" (.commandInvoke false) 0).2.reactions = 1 ∧
    (on_command_error S0 M0 false "ray-123" .other 0).2.webhook_sends =
      ["Ray ID: ray-123"] ∧
    (on_command_error S0 M0 false "ray-123" .other 0).2.replies =
      ["Quote Ray ID: ray-123 if contacting the developer."] := by
  decide

/-! ## Rate-limiter window lemmas for C2 -/

theorem runCooldown_length (ts : List Nat) : ∀ b : Cooldown,
    ((runCooldown b ts).2).length = ts.length := by
  induction ts with
  | nil => intro b; simp [runCooldown]
  | cons t tl ih => intro b; simp [runCooldown, ih]

theorem countP_eq_of_mem (l : List Nat) (p q : Nat → Bool)
    (h : ∀ a ∈ l, p a = q a) : l.countP p = l.countP q := by
  induction l with
  | nil => simp
  | cons a tl ih =>
      rw [List.countP_cons, List.countP_cons, h a (List.mem_cons_self a tl),
        ih (fun b hb => h b (List.mem_cons_of_mem a hb))]

theorem windowCount_cons_le (x : Nat) (tl : List Nat) (t : Nat) :
    windowCount tl t ≤ windowCount (x :: tl) t := by
  simp only [windowCount, List.countP_cons]
  omega

/-- Invariant step: a bucket with capacity 10/12 whose remaining budget covers
every future event of the current window never reports a retry, provided every
sliding 12-unit window of the trace holds at most 10 events. -/
theorem run_allowed_aux (ts : List Nat) : ∀ b : Cooldown, b.rate = 10 → b.per = 12 →
    List.Pairwise (· ≤ ·) ts → (∀ x ∈ ts, b.window ≤ x) →
    b.count + ts.countP (fun x => decide (x < b.window + 12)) ≤ 10 →
    (∀ t, windowCount ts t ≤ 10) →
    ∀ r ∈ (runCooldown b ts).2, r = none := by
  induction ts with
  | nil => intro b _ _ _ _ _ _ r hr; simp [runCooldown] at hr
  | cons t tl ih =>
      intro b hrate hper hpw hlb hbud hwin r hr
      obtain ⟨hhead, hpwtl⟩ := List.pairwise_cons.mp hpw
      by_cases hres : b.window + b.per ≤ t
      · have h10 : ¬ b.rate < 0 + 1 := by omega
        have hstep : b.update_rate_limit t = ({ b with window := t, count := 1 }, none) := by
          simp [Cooldown.update_rate_limit, hres, h10]
        simp only [runCooldown, hstep] at hr
        simp only [List.mem_cons] at hr
        rcases hr with hr | hr
        · exact hr
        · refine ih { b with window := t, count := 1 } hrate hper hpwtl hhead ?_
            (fun u => le_trans (windowCount_cons_le t tl u) (hwin u)) r hr
          have hw := hwin t
          have hpt : (decide (t ≤ t ∧ t < t + 12)) = true := by simp
          simp [windowCount, List.countP_cons, hpt] at hw
          have hcong : ∀ a ∈ tl,
              (decide (a < t + 12)) = (decide (t ≤ a) && decide (a < t + 12)) := by
            intro a ha
            have h1 := hhead a ha
            by_cases h2 : a < t + 12 <;> simp [h1, h2]
          show 1 + tl.countP (fun x => decide (x < t + 12)) ≤ 10
          rw [countP_eq_of_mem tl _ _ hcong]
          omega
      · have hle : b.window ≤ t := hlb t (List.mem_cons_self t tl)
        have hlt : t < b.window + 12 := by omega
        have hcnt : b.count + 1 ≤ 10 := by
          have hpt : (decide (t < b.window + 12)) = true := by simp [hlt]
          simp [List.countP_cons, hpt] at hbud
          omega
        have h10 : ¬ b.rate < b.count + 1 := by omega
        have hstep : b.update_rate_limit t = ({ b with count := b.count + 1 }, none) := by
          simp [Cooldown.update_rate_limit, hres, h10]
        simp only [runCooldown, hstep] at hr
        simp only [List.mem_cons] at hr
        rcases hr with hr | hr
        · exact hr
        · refine ih { b with count := b.count + 1 } hrate hper hpwtl
            (fun x hx => hlb x (List.mem_cons_of_mem t hx)) ?_
            (fun u => le_trans (windowCount_cons_le t tl u) (hwin u)) r hr
          have hpt : (decide (t < b.window + 12)) = true := by simp [hlt]
          simp [List.countP_cons, hpt] at hbud
          show b.count + 1 + tl.countP (fun x => decide (x < b.window + 12)) ≤ 10
          omega

/-- Within a single window (no event triggers a reset), the i-th answer is
allowed exactly while the running count stays within capacity, and otherwise
reports `window + 12 - t` for that event's time `t`. -/
theorem run_window_get (ts : List Nat) : ∀ b : Cooldown, b.rate = 10 → b.per = 12 →
    (∀ x ∈ ts, x < b.window + 12) →
    ∀ i, (runCooldown b ts).2.get? i =
      (ts.get? i).map (fun t =>
        if b.count + i + 1 ≤ 10 then none else some (b.window + 12 - t)) := by
  induction ts with
  | nil => intro b _ _ _ i; simp [runCooldown]
  | cons t tl ih =>
      intro b hrate hper hbound i
      have hlt : t < b.window + 12 := hbound t (List.mem_cons_self t tl)
      have hres : ¬ (b.window + b.per ≤ t) := by omega
      have hres12 : ¬ (b.window + 12 ≤ t) := by omega
      have hstep : b.update_rate_limit t =
          ({ b with count := b.count + 1 },
           if b.count + 1 ≤ 10 then none else some (b.window + 12 - t)) := by
        by_cases hcap : b.rate < b.count + 1
        · have hno : ¬ (b.count + 1 ≤ 10) := by omega
          simp [Cooldown.update_rate_limit, hres, hres12, hper, hcap, hno]
        · have hyes : b.count + 1 ≤ 10 := by omega
          simp [Cooldown.update_rate_limit, hres, hres12, hper, hcap, hyes]
      match i with
      | 0 =>
          simp [runCooldown, hstep]
      | Nat.succ j =>
          simp only [runCooldown, hstep, List.get?_cons_succ]
          have htail := ih { b with count := b.count + 1 } hrate hper
            (fun x hx => hbound x (List.mem_cons_of_mem t hx)) j
          rw [htail]
          congr 1
          funext u
          have hiff : b.count + 1 + j + 1 ≤ 10 ↔ b.count + (j + 1) + 1 ≤ 10 := by omega
          by_cases hcc : b.count + 1 + j + 1 ≤ 10
          · rw [if_pos hcc, if_pos (hiff.mp hcc)]
          · rw [if_neg hcc, if_neg (fun hx => hcc (hiff.mpr hx))]

/-- C2: (1) a caller whose trace (in non-decreasing time order, starting from
a fresh bucket) has at most 10 events in every sliding 12-unit window is
allowed on every event; (2) for events all inside the first event's 12-unit
window, the first 10 are allowed and the 11th and every later one is refused
with a strictly positive retry_after; (3) in `process_commands`, for an
eligible non-owner event, an allowed check leads to dispatch and a refused
check leads to a non-dispatched throttled/auto-blocked outcome carrying that
same retry_after. -/
theorem graha_C2 :
    (∀ (t0 : Nat) (ts : List Nat),
       List.Pairwise (· ≤ ·) (t0 :: ts) →
       (∀ t, windowCount (t0 :: ts) t ≤ 10) →
       ∀ r ∈ (runCooldown (get_bucket [] 10 12 0 t0) (t0 :: ts)).2, r = none) ∧
    (∀ (t0 : Nat) (ts : List Nat),
       (∀ x ∈ ts, t0 ≤ x ∧ x < t0 + 12) →
       ∀ i, i < (t0 :: ts).length →
         (i < 10 →
            (runCooldown (get_bucket [] 10 12 0 t0) (t0 :: ts)).2.get? i = some none) ∧
         (10 ≤ i →
            ∃ v, (runCooldown (get_bucket [] 10 12 0 t0) (t0 :: ts)).2.get? i =
                   some (some v) ∧ 0 < v)) ∧
    (∀ (s : BotState) (m : Message),
       (get_command s m).isNone = false →
       cfgHas s.blacklist m.authorId = false →
       guild_blocked s m = false →
       m.authorId ≠ s.ownerId →
       ((spamRetry s m = 0 → (process_commands s m).2 = .invoked) ∧
        (spamRetry s m ≠ 0 →
           (process_commands s m).2 ≠ .invoked ∧
           ((process_commands s m).2 = .throttled (spamRetry s m) ∨
            (process_commands s m).2 = .autoBlocked (spamRetry s m))))) := by
  refine ⟨?_, ?_, ?_⟩
  · intro t0 ts hpw hwin
    have hlow : ∀ x ∈ t0 :: ts, (get_bucket [] 10 12 0 t0).window ≤ x := by
      intro x hx
      rcases List.mem_cons.mp hx with rfl | hx
      · exact le_refl _
      · exact (List.pairwise_cons.mp hpw).1 x hx
    have hcong : ∀ a ∈ t0 :: ts,
        (decide (a < t0 + 12)) = (decide (t0 ≤ a ∧ a < t0 + 12)) := by
      intro a ha
      have h1 := hlow a ha
      by_cases h2 : a < t0 + 12 <;> simp [h2]
      · exact h1
    have hbud : (get_bucket [] 10 12 0 t0).count +
        (t0 :: ts).countP (fun x => decide (x < t0 + 12)) ≤ 10 := by
      show 0 + (t0 :: ts).countP (fun x => decide (x < t0 + 12)) ≤ 10
      rw [Nat.zero_add, countP_eq_of_mem _ _ _ hcong]
      exact hwin t0
    exact run_allowed_aux (t0 :: ts) (get_bucket [] 10 12 0 t0) rfl rfl hpw hlow hbud hwin
  · intro t0 ts hbound i hi
    have hwin : ∀ x ∈ t0 :: ts, x < (get_bucket [] 10 12 0 t0).window + 12 := by
      intro x hx
      rcases List.mem_cons.mp hx with rfl | hx
      · show x < x + 12; omega
      · exact (hbound x hx).2
    have hform := run_window_get (t0 :: ts) (get_bucket [] 10 12 0 t0) rfl rfl hwin i
    have hget : (t0 :: ts).get? i = some ((t0 :: ts).get ⟨i, hi⟩) := List.get?_eq_get hi
    constructor
    · intro h10
      rw [hform, hget]
      have : (get_bucket [] 10 12 0 t0).count + i + 1 ≤ 10 := by
        show 0 + i + 1 ≤ 10; omega
      simp [this]
    · intro h10
      rw [hform, hget]
      have hno : ¬ ((get_bucket [] 10 12 0 t0).count + i + 1 ≤ 10) := by
        show ¬ (0 + i + 1 ≤ 10); omega
      have hmem : (t0 :: ts).get ⟨i, hi⟩ ∈ t0 :: ts := (t0 :: ts).get_mem i hi
      have hlt : (t0 :: ts).get ⟨i, hi⟩ < t0 + 12 := by
        rcases List.mem_cons.mp hmem with heq | hmem2
        · omega
        · exact (hbound _ hmem2).2
      refine ⟨t0 + 12 - (t0 :: ts).get ⟨i, hi⟩, ?_, by omega⟩
      have hzw : (get_bucket [] 10 12 0 t0).window = t0 := rfl
      simp [hno, hzw]
  · intro s m hc ha hg ho
    constructor
    · intro hr
      rw [process_commands_clean s m hc ha hg (.inl hr)]
    · intro hr
      by_cases hcnt : 5 ≤ cntGet s.spammer_count m.authorId + 1
      · rw [process_commands_block s m hc ha hg hr ho hcnt]
        exact ⟨by simp, .inr rfl⟩
      · rw [process_commands_throttle s m hc ha hg hr ho (by omega)]
        exact ⟨by simp, .inl rfl⟩

/-- Witness for C2: ten events at times 0..9 are all allowed (shown for the
first answer); eleven events at time 0 give a refused 11th answer with a
positive retry; and in the saturated state `Sthrottle` the non-owner event
`Mt5` is not dispatched and carries retry 7. -/
theorem graha_C2_witness :
    (runCooldown (get_bucket [] 10 12 0 0) [0, 1, 2, 3, 4, 5, 6, 7, 8, 9]).2.getD 0 (some 1) =
      none ∧
    (∃ v, (runCooldown (get_bucket [] 10 12 0 0)
            [0, 0, 0, 0, 0, 0, 0, 0, 0, 0, 0]).2.get? 10 = some (some v) ∧ 0 < v) ∧
    ((process_commands Sthrottle Mt5).2 ≠ .invoked ∧
     ((process_commands Sthrottle Mt5).2 = .throttled (spamRetry Sthrottle Mt5) ∨
      (process_commands Sthrottle Mt5).2 = .autoBlocked (spamRetry Sthrottle Mt5))) :=
  ⟨graha_C2.1 0 [1, 2, 3, 4, 5, 6, 7, 8, 9] (by decide)
     (fun t => le_trans (List.countP_le_length _) (by decide))
     ((runCooldown (get_bucket [] 10 12 0 0) [0, 1, 2, 3, 4, 5, 6, 7, 8, 9]).2.getD 0 (some 1))
     (by decide),
   (graha_C2.2.1 0 [0, 0, 0, 0, 0, 0, 0, 0, 0, 0] (by decide) 10 (by decide)).2 (by decide),
   (graha_C2.2.2 Sthrottle Mt5 (by decide) (by decide) (by decide) (by decide)).2 (by decide)⟩

/-- Witness for the amended C8: the operator's edit of a message that already
carried an embed is reprocessed. -/
theorem graha_C8_amended_witness :
    (on_message_edit S0 MownEmb MownEmb).2 ≠ none :=
  (graha_C8_amended S0 MownEmb MownEmb).mpr (by decide)
